import Mathlib

/-!
# Verification of the discord-proxmox-bot metrics/alerting core

This file gives a shallow embedding, in Lean 4, of the alerting core of the
discord-proxmox-bot repository (the cron-driven alert engine in `alerts.ts`,
the SQLite wrapper `database.ts`, and the Proxmox client `proxmox.ts`) and
proves the behavioural properties claimed by the specification.

Modelling conventions:
* JavaScript numbers are modelled as `Rat` (the code only ever does
  arithmetic well inside the exactly-representable range).
* Timestamps (`Date.now()`, in milliseconds) are modelled as `Int`.
* A JavaScript `Map`/`Record` is modelled as a function into `Option`.
* `JSON.stringify`/`JSON.parse` round-tripping of the VM-state snapshot is
  modelled as the identity on the underlying map.
* ISO-8601 UTC timestamp strings compare exactly like the instants they
  denote, so SQLite `created_at` columns are modelled as `Int` timestamps.
* `console.log`/`console.warn`/`console.error` output is not modelled.
* Promises are modelled by their settled results: a function that performs a
  network fetch takes the settled outcome(s) of that fetch as an argument.
-/

/-- Outcome of one webhook `fetch` call: either the POST succeeded or it
threw (network error, non-2xx is not even checked by the code). -/
inductive DeliveryResult where
  | ok : DeliveryResult
  | failed : DeliveryResult
deriving Repr, DecidableEq

/-- The embed object posted to the Discord webhook by `sendDiscordAlert`
(title, description, color).  The `timestamp` field of the real embed is
presentation-only and not modelled. -/
structure DiscordEmbed where
  title : String
  description : String
  color : Nat
deriving Repr, DecidableEq

/-- From `proxmox.ts`: the status record returned by `getNodeStatus` (node name,
cpu percentage, memory and disk usage in bytes, uptime, load averages). -/
structure ProxmoxNodeStatus where
  node : String
  cpu : Rat
  memUsed : Rat
  memTotal : Rat
  memFree : Rat
  diskUsed : Rat
  diskTotal : Rat
  diskFree : Rat
  uptime : Rat
deriving Repr, DecidableEq

/-- From `types.ts`, `ProxmoxVM` restricted to the fields the alert engine reads
(`vmid`, `name`, `status`, `node`).  `status` is kept as a `String` exactly
as it is compared in `alerts.ts` (values `running`/`stopped`/`paused`). -/
structure ProxmoxVM where
  vmid : Nat
  name : String
  status : String
  node : String
deriving Repr, DecidableEq

/-- Row of `alert_thresholds` in `database.ts` (id/created_at columns are never
read by the engine and are omitted; `enabled` is stored as INTEGER 0/1 and
modelled as `Bool`). -/
structure AlertThreshold where
  metric : String
  threshold : Rat
  enabled : Bool
deriving Repr, DecidableEq

/-- The argument tuple of one `db.addAlertHistory(metric, value, threshold,
message)` call made by `checkThresholds`. -/
structure AlertHistoryInsert where
  metric : String
  value : Rat
  threshold : Rat
  message : String
deriving Repr, DecidableEq

/-- The argument tuple of one `db.addMetricHistory(node, metric, value)`
call made by `collectMetrics`. -/
structure MetricPoint where
  node : String
  metric : String
  value : Rat
deriving Repr, DecidableEq

/-- From `alerts.ts` line 9: `COOLDOWN_MS = 15 * 60 * 1000`. -/
def COOLDOWN_MS : Int := 15 * 60 * 1000

/-- The `alertCooldowns : Map<string, number>` of `alerts.ts` line 8. -/
abbrev CooldownMap := String → Option Int

/-- From `alerts.ts` line 36: `getCooldownKey(node, metric)` returns
`` `${node}:${metric}` ``. -/
def getCooldownKey (node metric : String) : String :=
  node ++ ":" ++ metric

/-- From `alerts.ts` lines 40-45: `isOnCooldown`.  `Date.now()` is passed in as
`now`.  Note that the guard `if (!lastAlert) return false` treats a stored
timestamp of `0` as "no cooldown" because `0` is falsy in JavaScript. -/
def isOnCooldown (cooldowns : CooldownMap) (now : Int) (node metric : String) : Bool :=
  match cooldowns (getCooldownKey node metric) with
  | none => false
  | some lastAlert =>
      if lastAlert = 0 then false
      else decide (now - lastAlert < COOLDOWN_MS)

/-- From `alerts.ts` lines 47-49: `setCooldown` stores `Date.now()` under the
pair's key. -/
def setCooldown (cooldowns : CooldownMap) (now : Int) (node metric : String) : CooldownMap :=
  fun k => if k = getCooldownKey node metric then some now else cooldowns k

/-- From `alerts.ts` lines 11-34: `sendDiscordAlert`.  If the webhook URL is not
configured, it warns and returns without a network call; otherwise it POSTs
the embed and catches (only logging) any delivery failure, so it always
returns normally.  Its value is the list of POST attempts made (empty or a
singleton); the delivery outcome is supplied by the `deliver` oracle and
affects nothing but the log line. -/
def sendDiscordAlert (webhookConfigured : Bool)
    (deliver : DiscordEmbed → DeliveryResult) (e : DiscordEmbed) : List DiscordEmbed :=
  if webhookConfigured = false then []
  else
    match deliver e with
    | DeliveryResult.ok => [e]
    | DeliveryResult.failed => [e]

/-- From `proxmox.ts` lines 119-127: `getAllNodesStatus` awaits all per-node
status fetches with `Promise.allSettled` and keeps only the fulfilled ones.
Rejected fetches are dropped without being recorded anywhere. -/
def getAllNodesStatus (settled : List (Except String ProxmoxNodeStatus)) :
    List ProxmoxNodeStatus :=
  settled.filterMap fun r =>
    match r with
    | Except.ok s => some s
    | Except.error _ => none

/-- From `alerts.ts` lines 51-66, body of the `for` loop of `collectMetrics`:
for each fulfilled node status, write three metric points — cpu, and the
derived memory and disk percentages `used / total * 100`. -/
def collectMetrics (nodesStatus : List ProxmoxNodeStatus) : List MetricPoint :=
  nodesStatus.flatMap fun s =>
    [⟨s.node, "cpu", s.cpu⟩,
     ⟨s.node, "memory", s.memUsed / s.memTotal * 100⟩,
     ⟨s.node, "disk", s.diskUsed / s.diskTotal * 100⟩]

/-- Module state: `proxmox.ts` line 129 declares the module-level
`lastNodeErrors: Map<string, string>`.  It is reassigned only inside
`getVMs` (lines 137 and 158); the node-status path never touches it.
`collectMetricsTick` models one run of `collectMetrics` (alerts.ts lines
51-66) together with that module state: it returns the metric points
written and the (unchanged) error map. -/
def collectMetricsTick (settled : List (Except String ProxmoxNodeStatus))
    (lastNodeErrors : List (String × String)) :
    List MetricPoint × List (String × String) :=
  (collectMetrics (getAllNodesStatus settled), lastNodeErrors)

/-- From `alerts.ts` lines 77-93: the `switch (threshold.metric)` deriving
`currentValue`; an unknown metric leaves the initial value `0`. -/
def currentValueOf (s : ProxmoxNodeStatus) (metric : String) : Rat :=
  match metric with
  | "cpu" => s.cpu
  | "memory" => s.memUsed / s.memTotal * 100
  | "disk" => s.diskUsed / s.diskTotal * 100
  | _ => 0

/-- From `alerts.ts` lines 77-93: the `switch (threshold.metric)` deriving
`metricName`; an unknown metric leaves the initial value `''`. -/
def metricLabelOf (metric : String) : String :=
  match metric with
  | "cpu" => "CPU"
  | "memory" => "RAM"
  | "disk" => "Disk"
  | _ => ""

/-- Model of `Number.prototype.toFixed(1)` on the rationals the engine
computes: one decimal digit, rounding half away from zero.  (On the real
binary floats, ties round by the float's exact value; no claim depends on
tie behaviour.) -/
def toFixed1 (q : Rat) : String :=
  let scaled : Nat := (Rat.floor (|q| * 10 + 1 / 2)).toNat
  (if q < 0 then "-" else "") ++ toString (scaled / 10) ++ "." ++ toString (scaled % 10)

/-- Model of JavaScript number-to-string interpolation for a threshold
value (an integer in every seeded row). -/
def numToString (q : Rat) : String :=
  toString q

/-- From `alerts.ts` line 97: the message stored in the alert history row. -/
def alertMessage (metricName node : String) (currentValue threshold : Rat) : String :=
  metricName ++ " on " ++ node ++ ": " ++ toFixed1 currentValue ++
    "% (threshold: " ++ numToString threshold ++ "%)"

/-- From `alerts.ts` lines 101-105: the embed passed to `sendDiscordAlert` when a
threshold alert fires. -/
def alertEmbed (metricName node : String) (currentValue threshold : Rat) : DiscordEmbed :=
  { title := "⚠️ " ++ metricName ++ " Alert"
    description := "**" ++ node ++ "** exceeded threshold\n" ++ metricName ++ ": **" ++
      toFixed1 currentValue ++ "%** / " ++ numToString threshold ++ "%"
    color := 0xffaa00 }

/-- One fire of the threshold alarm (`alerts.ts` lines 97-107): the three
calls `db.addAlertHistory`, `sendDiscordAlert`, `setCooldown` happen
together.  `node`/`metric` are the `setCooldown(status.node,
threshold.metric)` arguments, `row` the `addAlertHistory` arguments, and
`notified` the POST attempts of the `sendDiscordAlert` call. -/
structure FireEvent where
  node : String
  metric : String
  row : AlertHistoryInsert
  notified : List DiscordEmbed
deriving Repr, DecidableEq

/-- State threaded through the two nested loops of `checkThresholds`:
fires recorded so far (in order) and the cooldown map. -/
structure EvalState where
  fires : List FireEvent
  cooldowns : CooldownMap

/-- The `FireEvent` produced when the cell `(status, thr)` fires. -/
def mkFire (webhookConfigured : Bool) (deliver : DiscordEmbed → DeliveryResult)
    (s : ProxmoxNodeStatus) (thr : AlertThreshold) : FireEvent :=
  let currentValue := currentValueOf s thr.metric
  let metricName := metricLabelOf thr.metric
  { node := s.node
    metric := thr.metric
    row := ⟨thr.metric, currentValue, thr.threshold,
            alertMessage metricName s.node currentValue thr.threshold⟩
    notified := sendDiscordAlert webhookConfigured deliver
      (alertEmbed metricName s.node currentValue thr.threshold) }

/-- From `alerts.ts` lines 74-110: the body of the inner loop of
`checkThresholds` for one `(status, threshold)` pair: skip disabled rows
(`continue`); derive the current value; if it is `>=` the threshold and the
pair is not on cooldown, append the alert-history row, attempt the Discord
notification, and set the pair's cooldown to `now`. -/
def evalCell (now : Int) (webhookConfigured : Bool)
    (deliver : DiscordEmbed → DeliveryResult)
    (s : ProxmoxNodeStatus) (thr : AlertThreshold) (st : EvalState) : EvalState :=
  if thr.enabled = false then st
  else
    if thr.threshold ≤ currentValueOf s thr.metric then
      if isOnCooldown st.cooldowns now s.node thr.metric = false then
        { fires := st.fires ++ [mkFire webhookConfigured deliver s thr]
          cooldowns := setCooldown st.cooldowns now s.node thr.metric }
      else st
    else st

/-- From `alerts.ts` lines 68-115: `checkThresholds`.  The fetched node statuses
and the threshold rows are explicit arguments (the real function obtains
them from `proxmox.getAllNodesStatus()` and `db.getAlertThresholds()`);
`cooldowns0` is the `alertCooldowns` map when the tick starts. -/
def checkThresholds (now : Int) (webhookConfigured : Bool)
    (deliver : DiscordEmbed → DeliveryResult)
    (nodesStatus : List ProxmoxNodeStatus) (thresholds : List AlertThreshold)
    (cooldowns0 : CooldownMap) : EvalState :=
  nodesStatus.foldl
    (fun st status =>
      thresholds.foldl (fun st thr => evalCell now webhookConfigured deliver status thr st) st)
    ⟨[], cooldowns0⟩

/-- The alert-history rows written during a tick of `checkThresholds`. -/
def historyWrites (st : EvalState) : List AlertHistoryInsert :=
  st.fires.map (·.row)

/-- The Discord POST attempts made during a tick of `checkThresholds`. -/
def notificationsSent (st : EvalState) : List DiscordEmbed :=
  st.fires.flatMap (·.notified)

/-- The snapshot map `Record<string, string>` of `alerts.ts` (both
`prevStatesMap` and `currentStatesMap`): workload key to last observed
run-state.  Persistence via `JSON.stringify`/`JSON.parse` under the
`vm_states` config key is modelled as the map itself. -/
abbrev VMStateMap := String → Option String

/-- From `alerts.ts` line 125: the snapshot key `` `${vm.node}:${vm.vmid}` ``. -/
def vmKey (vm : ProxmoxVM) : String :=
  vm.node ++ ":" ++ toString vm.vmid

/-- From `alerts.ts` line 131/139: `` vm.name || `VM ${vm.vmid}` `` (an empty
name is falsy). -/
def vmDisplayName (vm : ProxmoxVM) : String :=
  if vm.name = "" then "VM " ++ toString vm.vmid else vm.name

/-- From `alerts.ts` lines 129-133: the embed of a stop-transition alert. -/
def vmStoppedEmbed (vm : ProxmoxVM) : DiscordEmbed :=
  { title := "🔴 VM Stopped"
    description := "**" ++ vmDisplayName vm ++ "** on " ++ vm.node
    color := 0xff0000 }

/-- From `alerts.ts` lines 136-142: the embed of a start-transition alert. -/
def vmStartedEmbed (vm : ProxmoxVM) : DiscordEmbed :=
  { title := "🟢 VM Started"
    description := "**" ++ vmDisplayName vm ++ "** on " ++ vm.node
    color := 0x00ff00 }

/-- One transition notification emitted by `checkVMStatus`, together with
the loop context that emitted it: the workload's identity, whether it was a
start transition, and the POST attempts of the `sendDiscordAlert` call. -/
structure VMTransitionEvent where
  node : String
  vmid : Nat
  started : Bool
  notified : List DiscordEmbed
deriving Repr, DecidableEq

/-- The transition events the loop body of `checkVMStatus` (`alerts.ts`
lines 124-143) emits for one workload: a stop event if the previous
snapshot said `running` and it is now `stopped`, then a start event in the
symmetric case.  The conditions read only `prevStatesMap` and the current
workload, never `currentStatesMap`. -/
def vmEvents (webhookConfigured : Bool) (deliver : DiscordEmbed → DeliveryResult)
    (prev : VMStateMap) (vm : ProxmoxVM) : List VMTransitionEvent :=
  (if prev (vmKey vm) = some "running" ∧ vm.status = "stopped" then
    [⟨vm.node, vm.vmid, false, sendDiscordAlert webhookConfigured deliver (vmStoppedEmbed vm)⟩]
  else []) ++
  (if prev (vmKey vm) = some "stopped" ∧ vm.status = "running" then
    [⟨vm.node, vm.vmid, true, sendDiscordAlert webhookConfigured deliver (vmStartedEmbed vm)⟩]
  else [])

/-- From `alerts.ts` line 126 iterated over the whole loop: `currentStatesMap`
starts empty and records `vm.status` under each workload's key. -/
def buildStatesMap (vms : List ProxmoxVM) : VMStateMap :=
  vms.foldl (fun m vm => fun k => if k = vmKey vm then some vm.status else m k)
    (fun _ => none)

/-- Result of one run of `checkVMStatus`: the transition events emitted and
the snapshot persisted by `db.setConfig('vm_states', ...)` on line 145. -/
structure VMDetectorResult where
  events : List VMTransitionEvent
  snapshot : VMStateMap

/-- From `alerts.ts` lines 117-149: `checkVMStatus`.  The current workload
inventory `vms` is an explicit argument (the real function obtains it from
`proxmox.getVMs()`); `prev` is the previously persisted snapshot (the empty
map when the `vm_states` key is absent).  After the loop the full
current-state map is persisted unconditionally. -/
def checkVMStatus (webhookConfigured : Bool) (deliver : DiscordEmbed → DeliveryResult)
    (prev : VMStateMap) (vms : List ProxmoxVM) : VMDetectorResult :=
  let final := vms.foldl
    (fun (acc : List VMTransitionEvent × VMStateMap) vm =>
      (acc.1 ++ vmEvents webhookConfigured deliver prev vm,
       fun k => if k = vmKey vm then some vm.status else acc.2 k))
    ([], fun _ => none)
  { events := final.1, snapshot := final.2 }

/-- Row of `metric_history` in `database.ts` (`id` is never consulted by the
cleanup and is omitted; `created_at` is the insertion timestamp). -/
structure MetricHistoryRow where
  node : String
  metric : String
  value : Rat
  created_at : Int
deriving Repr, DecidableEq

/-- Row of `alert_history` in `database.ts`. -/
structure AlertHistoryRow where
  id : Nat
  metric : String
  value : Rat
  threshold : Rat
  message : String
  created_at : Int
deriving Repr, DecidableEq

/-- The `ORDER BY created_at DESC` comparison of `cleanupOldHistory`. -/
def createdAtDesc (a b : AlertHistoryRow) : Bool :=
  decide (b.created_at ≤ a.created_at)

/-- From `database.ts` lines 122-132: `cleanupOldHistory`.  Metric history rows
strictly older than seven days are deleted; alert history keeps exactly the
rows whose `id` is among the 1000 most recent by `created_at`
(`ORDER BY created_at DESC LIMIT 1000`). -/
def cleanupOldHistory (now : Int) (metricHist : List MetricHistoryRow)
    (alertHist : List AlertHistoryRow) :
    List MetricHistoryRow × List AlertHistoryRow :=
  let weekAgo : Int := now - 7 * 24 * 60 * 60 * 1000
  let keptMetric := metricHist.filter fun r => !decide (r.created_at < weekAgo)
  let keepIds := ((alertHist.mergeSort createdAtDesc).take 1000).map (·.id)
  let keptAlert := alertHist.filter fun r => keepIds.contains r.id
  (keptMetric, keptAlert)

/-- Store of `alert_thresholds` rows as in `database.ts` (`id`/`created_at`
omitted as in `AlertThreshold`). -/
abbrev ThresholdStore := List AlertThreshold

/-- From `database.ts` lines 53-55: the three `INSERT OR IGNORE` seed rows of
`initDatabase`. -/
def defaultThresholdSeed : ThresholdStore :=
  [⟨"cpu", 80, true⟩, ⟨"memory", 85, true⟩, ⟨"disk", 90, true⟩]

/-- From `database.ts` lines 17-59: the effect of `initDatabase` on the
`alert_thresholds` table: each seed row is inserted unless a row with the
same (UNIQUE) metric already exists. -/
def initDatabase (store : ThresholdStore) : ThresholdStore :=
  defaultThresholdSeed.foldl
    (fun s row => if s.any (fun r => r.metric == row.metric) then s else s ++ [row]) store

/-- From `database.ts` lines 69-72: `updateAlertThreshold` runs
`UPDATE alert_thresholds SET threshold = ?, enabled = ? WHERE metric = ?`:
every row whose metric matches is updated, no row is inserted. -/
def updateAlertThreshold (store : ThresholdStore) (metric : String)
    (threshold : Rat) (enabled : Bool) : ThresholdStore :=
  store.map fun r =>
    if r.metric = metric then { r with threshold := threshold, enabled := enabled } else r

/-- The metric names that can ever appear in the threshold store: the three
seed rows are the only inserts (`INSERT OR IGNORE`), and
`updateAlertThreshold` never inserts. -/
def seededMetric (m : String) : Prop :=
  m = "cpu" ∨ m = "memory" ∨ m = "disk"

instance (m : String) : Decidable (seededMetric m) := by
  unfold seededMetric
  infer_instance

lemma getCooldownKey_inj {n1 m1 n2 m2 : String}
    (h1 : seededMetric m1) (h2 : seededMetric m2)
    (h : getCooldownKey n1 m1 = getCooldownKey n2 m2) : n1 = n2 ∧ m1 = m2 := by
  unfold getCooldownKey at h
  have hd := congrArg String.data h
  rcases h1 with h1 | h1 | h1 <;> rcases h2 with h2 | h2 | h2 <;> subst h1 <;> subst h2 <;>
    simp only [String.data_append, List.append_assoc, List.singleton_append] at hd
  case _ =>
    exact ⟨String.ext (List.append_inj' hd rfl).1, rfl⟩
  case _ =>
    exfalso; have hr := congrArg List.reverse hd; simp at hr
  case _ =>
    exfalso; have hr := congrArg List.reverse hd; simp at hr
  case _ =>
    exfalso; have hr := congrArg List.reverse hd; simp at hr
  case _ =>
    exact ⟨String.ext (List.append_inj' hd rfl).1, rfl⟩
  case _ =>
    exfalso; have hr := congrArg List.reverse hd; simp at hr
  case _ =>
    exfalso; have hr := congrArg List.reverse hd; simp at hr
  case _ =>
    exfalso; have hr := congrArg List.reverse hd; simp at hr
  case _ =>
    exact ⟨String.ext (List.append_inj' hd rfl).1, rfl⟩

lemma sendDiscordAlert_eq (conf : Bool) (d : DiscordEmbed → DeliveryResult)
    (e : DiscordEmbed) :
    sendDiscordAlert conf d e = if conf = true then [e] else [] := by
  cases conf
  · simp [sendDiscordAlert]
  · simp only [sendDiscordAlert]
    cases d e <;> simp

lemma mkFire_deliver_indep (conf : Bool) (d1 d2 : DiscordEmbed → DeliveryResult)
    (s : ProxmoxNodeStatus) (thr : AlertThreshold) :
    mkFire conf d1 s thr = mkFire conf d2 s thr := by
  simp only [mkFire, sendDiscordAlert_eq]

lemma evalCell_cases (now : Int) (conf : Bool) (d : DiscordEmbed → DeliveryResult)
    (s : ProxmoxNodeStatus) (thr : AlertThreshold) (st : EvalState) :
    evalCell now conf d s thr st = st ∨
      (thr.enabled = true ∧ thr.threshold ≤ currentValueOf s thr.metric ∧
        isOnCooldown st.cooldowns now s.node thr.metric = false ∧
        evalCell now conf d s thr st =
          { fires := st.fires ++ [mkFire conf d s thr]
            cooldowns := setCooldown st.cooldowns now s.node thr.metric }) := by
  by_cases h1 : thr.enabled = false
  · left; simp [evalCell, h1]
  · simp only [Bool.not_eq_false] at h1
    by_cases h2 : thr.threshold ≤ currentValueOf s thr.metric
    · by_cases h3 : isOnCooldown st.cooldowns now s.node thr.metric = false
      · right
        refine ⟨h1, h2, h3, ?_⟩
        simp [evalCell, h1, h2, h3]
      · left; simp only [Bool.not_eq_false] at h3; simp [evalCell, h1, h2, h3]
    · left; simp [evalCell, h1, h2]

lemma evalCell_disabled (now : Int) (conf : Bool) (d : DiscordEmbed → DeliveryResult)
    (s : ProxmoxNodeStatus) (thr : AlertThreshold) (st : EvalState)
    (h : thr.enabled = false) : evalCell now conf d s thr st = st := by
  simp [evalCell, h]

lemma evalCell_deliver_indep (now : Int) (conf : Bool)
    (d1 d2 : DiscordEmbed → DeliveryResult) (s : ProxmoxNodeStatus)
    (thr : AlertThreshold) (st : EvalState) :
    evalCell now conf d1 s thr st = evalCell now conf d2 s thr st := by
  simp only [evalCell, mkFire_deliver_indep conf d1 d2 s thr]

/-- The flattened cell list of one evaluator tick: the nested
`for (status) { for (threshold) { ... } }` visits these pairs in order. -/
def tickCells (nodesStatus : List ProxmoxNodeStatus) (thresholds : List AlertThreshold) :
    List (ProxmoxNodeStatus × AlertThreshold) :=
  nodesStatus.flatMap fun s => thresholds.map fun thr => (s, thr)

/-- Folding `evalCell` over a flat cell list. -/
def foldCells (now : Int) (conf : Bool) (d : DiscordEmbed → DeliveryResult)
    (cells : List (ProxmoxNodeStatus × AlertThreshold)) (st : EvalState) : EvalState :=
  cells.foldl (fun st c => evalCell now conf d c.1 c.2 st) st

lemma checkThresholds_eq_foldCells (now : Int) (conf : Bool)
    (d : DiscordEmbed → DeliveryResult) (nodesStatus : List ProxmoxNodeStatus)
    (thresholds : List AlertThreshold) (cooldowns0 : CooldownMap) :
    checkThresholds now conf d nodesStatus thresholds cooldowns0 =
      foldCells now conf d (tickCells nodesStatus thresholds) ⟨[], cooldowns0⟩ := by
  unfold checkThresholds foldCells tickCells
  generalize (⟨[], cooldowns0⟩ : EvalState) = st
  induction nodesStatus generalizing st with
  | nil => rfl
  | cons s rest ih =>
      simp only [List.flatMap_cons, List.foldl_append, List.foldl_cons, List.foldl_map]
      rw [ih]

lemma foldCells_nil (now : Int) (conf : Bool) (d : DiscordEmbed → DeliveryResult)
    (st : EvalState) : foldCells now conf d [] st = st := rfl

lemma foldCells_cons (now : Int) (conf : Bool) (d : DiscordEmbed → DeliveryResult)
    (c : ProxmoxNodeStatus × AlertThreshold)
    (cells : List (ProxmoxNodeStatus × AlertThreshold)) (st : EvalState) :
    foldCells now conf d (c :: cells) st =
      foldCells now conf d cells (evalCell now conf d c.1 c.2 st) := rfl

/-- Soundness of the fire trace: every fire recorded by a tick either was
already recorded or comes from an enabled cell whose current value reached
its threshold. -/
lemma foldCells_fires_sound (now : Int) (conf : Bool)
    (d : DiscordEmbed → DeliveryResult) :
    ∀ (cells : List (ProxmoxNodeStatus × AlertThreshold)) (st : EvalState),
      ∀ e ∈ (foldCells now conf d cells st).fires,
        e ∈ st.fires ∨ ∃ c ∈ cells, c.2.enabled = true ∧
          c.2.threshold ≤ currentValueOf c.1 c.2.metric ∧ e = mkFire conf d c.1 c.2 := by
  intro cells
  induction cells with
  | nil => intro st e he; exact Or.inl he
  | cons c rest ih =>
      intro st e he
      rw [foldCells_cons] at he
      rcases ih (evalCell now conf d c.1 c.2 st) e he with hin | ⟨c', hc', hen, hge, hee⟩
      · rcases evalCell_cases now conf d c.1 c.2 st with hid | ⟨hen, hge, _, hfire⟩
        · rw [hid] at hin; exact Or.inl hin
        · rw [hfire] at hin
          rcases List.mem_append.1 hin with hin | hin
          · exact Or.inl hin
          · rcases List.mem_singleton.1 hin with rfl
            exact Or.inr ⟨c, List.mem_cons_self c rest, hen, hge, rfl⟩
      · exact Or.inr ⟨c', List.mem_cons_of_mem c hc', hen, hge, hee⟩

/-- Soundness of the cooldown writes: a key whose cooldown entry changed
during a tick is the key of an enabled cell that reached its threshold, and
the new entry is `now`. -/
lemma foldCells_cooldowns_sound (now : Int) (conf : Bool)
    (d : DiscordEmbed → DeliveryResult) :
    ∀ (cells : List (ProxmoxNodeStatus × AlertThreshold)) (st : EvalState) (k : String),
      (foldCells now conf d cells st).cooldowns k = st.cooldowns k ∨
        ((∃ c ∈ cells, c.2.enabled = true ∧ c.2.threshold ≤ currentValueOf c.1 c.2.metric ∧
            k = getCooldownKey c.1.node c.2.metric) ∧
          (foldCells now conf d cells st).cooldowns k = some now) := by
  intro cells
  induction cells with
  | nil => intro st k; exact Or.inl rfl
  | cons c rest ih =>
      intro st k
      rw [foldCells_cons]
      rcases evalCell_cases now conf d c.1 c.2 st with hid | ⟨hen, hge, _, hfire⟩
      · rw [hid]
        rcases ih st k with h | ⟨⟨c', hc', h1, h2, h3⟩, hval⟩
        · exact Or.inl h
        · exact Or.inr ⟨⟨c', List.mem_cons_of_mem c hc', h1, h2, h3⟩, hval⟩
      · rw [hfire]
        rcases ih _ k with h | ⟨⟨c', hc', h1, h2, h3⟩, hval⟩
        · by_cases hk : k = getCooldownKey c.1.node c.2.metric
          · exact Or.inr ⟨⟨c, List.mem_cons_self c rest, hen, hge, hk⟩,
              by rw [h]; simp [setCooldown, hk]⟩
          · exact Or.inl (by rw [h]; simp [setCooldown, hk])
        · exact Or.inr ⟨⟨c', List.mem_cons_of_mem c hc', h1, h2, h3⟩, hval⟩

/-- Cooldown suppression invariant: while a pair's stored cooldown
timestamp `t` is nonzero and within the window, a tick leaves that entry
untouched and records no fire for the pair. -/
lemma foldCells_suppressed (now t : Int) (conf : Bool)
    (d : DiscordEmbed → DeliveryResult) (node metric : String)
    (h0 : t ≠ 0) (hlt : now - t < COOLDOWN_MS) :
    ∀ (cells : List (ProxmoxNodeStatus × AlertThreshold)) (st : EvalState),
      st.cooldowns (getCooldownKey node metric) = some t →
      (foldCells now conf d cells st).cooldowns (getCooldownKey node metric) = some t ∧
        ∀ e ∈ (foldCells now conf d cells st).fires,
          e ∈ st.fires ∨ ¬(e.node = node ∧ e.metric = metric) := by
  intro cells
  induction cells with
  | nil => intro st hst; exact ⟨hst, fun e he => Or.inl he⟩
  | cons c rest ih =>
      intro st hst
      rw [foldCells_cons]
      rcases evalCell_cases now conf d c.1 c.2 st with hid | ⟨hen, hge, hcool, hfire⟩
      · rw [hid]; exact ih st hst
      · have hkey : getCooldownKey c.1.node c.2.metric ≠ getCooldownKey node metric := by
          intro hk
          have : isOnCooldown st.cooldowns now c.1.node c.2.metric = true := by
            unfold isOnCooldown
            rw [hk, hst]
            show (if t = 0 then false else decide (now - t < COOLDOWN_MS)) = true
            rw [if_neg h0]
            simpa using hlt
          rw [hcool] at this
          exact Bool.false_ne_true this
        have hst' :
            (evalCell now conf d c.1 c.2 st).cooldowns (getCooldownKey node metric) = some t := by
          rw [hfire]
          simpa [setCooldown, Ne.symm hkey] using hst
        rcases ih _ hst' with ⟨hcd, hfires⟩
        refine ⟨hcd, fun e he => ?_⟩
        rcases hfires e he with hin | hnot
        · rw [hfire] at hin
          rcases List.mem_append.1 hin with hin | hin
          · exact Or.inl hin
          · rcases List.mem_singleton.1 hin with rfl
            refine Or.inr fun ⟨hn, hm⟩ => ?_
            apply hkey
            unfold mkFire at hn hm
            simp only at hn hm
            rw [hn, hm]
        · exact Or.inr hnot

lemma foldCells_deliver_indep (now : Int) (conf : Bool)
    (d1 d2 : DiscordEmbed → DeliveryResult) :
    ∀ (cells : List (ProxmoxNodeStatus × AlertThreshold)) (st : EvalState),
      foldCells now conf d1 cells st = foldCells now conf d2 cells st := by
  intro cells
  induction cells with
  | nil => intro st; rfl
  | cons c rest ih =>
      intro st
      rw [foldCells_cons, foldCells_cons, evalCell_deliver_indep now conf d1 d2, ih]

lemma checkThresholds_deliver_indep (now : Int) (conf : Bool)
    (d1 d2 : DiscordEmbed → DeliveryResult) (nodesStatus : List ProxmoxNodeStatus)
    (thresholds : List AlertThreshold) (cooldowns0 : CooldownMap) :
    checkThresholds now conf d1 nodesStatus thresholds cooldowns0 =
      checkThresholds now conf d2 nodesStatus thresholds cooldowns0 := by
  rw [checkThresholds_eq_foldCells, checkThresholds_eq_foldCells,
    foldCells_deliver_indep now conf d1 d2]

/-- A disabled threshold row is skipped entirely: removing it from the
row list does not change the tick at all. -/
lemma checkThresholds_skip_disabled (now : Int) (conf : Bool)
    (d : DiscordEmbed → DeliveryResult) (nodesStatus : List ProxmoxNodeStatus)
    (l1 l2 : List AlertThreshold) (thr : AlertThreshold) (cooldowns0 : CooldownMap)
    (h : thr.enabled = false) :
    checkThresholds now conf d nodesStatus (l1 ++ thr :: l2) cooldowns0 =
      checkThresholds now conf d nodesStatus (l1 ++ l2) cooldowns0 := by
  have hfun :
      (fun (st : EvalState) s =>
        (l1 ++ thr :: l2).foldl (fun st t => evalCell now conf d s t st) st) =
      (fun (st : EvalState) s =>
        (l1 ++ l2).foldl (fun st t => evalCell now conf d s t st) st) := by
    funext st s
    simp only [List.foldl_append, List.foldl_cons]
    rw [evalCell_disabled now conf d s thr _ h]
  unfold checkThresholds
  rw [hfun]

/-- The transition events of a run are exactly the per-workload events, in
inventory order: the loop conditions read only the previous snapshot. -/
lemma checkVMStatus_events (conf : Bool) (d : DiscordEmbed → DeliveryResult)
    (prev : VMStateMap) (vms : List ProxmoxVM) :
    (checkVMStatus conf d prev vms).events = vms.flatMap (vmEvents conf d prev) := by
  unfold checkVMStatus
  suffices h : ∀ (l : List ProxmoxVM) (acc : List VMTransitionEvent × VMStateMap),
      (l.foldl (fun (acc : List VMTransitionEvent × VMStateMap) vm =>
        (acc.1 ++ vmEvents conf d prev vm,
         fun k => if k = vmKey vm then some vm.status else acc.2 k)) acc).1 =
        acc.1 ++ l.flatMap (vmEvents conf d prev) by
    simpa using h vms ([], fun _ => none)
  intro l
  induction l with
  | nil => intro acc; simp
  | cons vm rest ih =>
      intro acc
      simp only [List.foldl_cons, List.flatMap_cons]
      rw [ih]
      simp [List.append_assoc]

/-- The snapshot persisted by a run is the full current-state map, built
from the current inventory alone, whatever the previous snapshot and
whether or not any event fired. -/
lemma checkVMStatus_snapshot (conf : Bool) (d : DiscordEmbed → DeliveryResult)
    (prev : VMStateMap) (vms : List ProxmoxVM) :
    (checkVMStatus conf d prev vms).snapshot = buildStatesMap vms := by
  unfold checkVMStatus buildStatesMap
  suffices h : ∀ (l : List ProxmoxVM) (acc : List VMTransitionEvent × VMStateMap),
      (l.foldl (fun (acc : List VMTransitionEvent × VMStateMap) vm =>
        (acc.1 ++ vmEvents conf d prev vm,
         fun k => if k = vmKey vm then some vm.status else acc.2 k)) acc).2 =
        l.foldl (fun m vm => fun k => if k = vmKey vm then some vm.status else m k) acc.2 by
    simpa using h vms ([], fun _ => none)
  intro l
  induction l with
  | nil => intro acc; rfl
  | cons vm rest ih =>
      intro acc
      simp only [List.foldl_cons]
      exact ih _

lemma vmEvents_deliver_indep (conf : Bool) (d1 d2 : DiscordEmbed → DeliveryResult)
    (prev : VMStateMap) (vm : ProxmoxVM) :
    vmEvents conf d1 prev vm = vmEvents conf d2 prev vm := by
  simp only [vmEvents, sendDiscordAlert_eq]

lemma checkVMStatus_deliver_indep (conf : Bool) (d1 d2 : DiscordEmbed → DeliveryResult)
    (prev : VMStateMap) (vms : List ProxmoxVM) :
    checkVMStatus conf d1 prev vms = checkVMStatus conf d2 prev vms := by
  have hstep :
      (fun (acc : List VMTransitionEvent × VMStateMap) vm =>
        (acc.1 ++ vmEvents conf d1 prev vm,
         fun k => if k = vmKey vm then some vm.status else acc.2 k)) =
      (fun (acc : List VMTransitionEvent × VMStateMap) vm =>
        (acc.1 ++ vmEvents conf d2 prev vm,
         fun k => if k = vmKey vm then some vm.status else acc.2 k)) := by
    funext acc vm
    rw [vmEvents_deliver_indep conf d1 d2]
  unfold checkVMStatus
  rw [hstep]

/-- Keys not written by the state-map fold keep their value. -/
lemma statesFold_lookup_of_not_mem (k : String) :
    ∀ (l : List ProxmoxVM) (m : VMStateMap), k ∉ l.map vmKey →
      (l.foldl (fun m vm => fun k => if k = vmKey vm then some vm.status else m k) m) k = m k := by
  intro l
  induction l with
  | nil => intro m _; rfl
  | cons vm rest ih =>
      intro m hk
      simp only [List.map_cons, List.mem_cons] at hk
      push_neg at hk
      simp only [List.foldl_cons]
      rw [ih _ hk.2]
      simp [hk.1]

/-- With pairwise distinct workload keys, the state-map fold answers each
workload's own key with its current status, whatever the initial map. -/
lemma statesFold_lookup_self :
    ∀ (l : List ProxmoxVM) (m : VMStateMap), (l.map vmKey).Nodup →
      ∀ vm ∈ l,
        (l.foldl (fun m vm => fun k => if k = vmKey vm then some vm.status else m k) m)
          (vmKey vm) = some vm.status := by
  intro l
  induction l with
  | nil => intro m _ vm h; cases h
  | cons v rest ih =>
      intro m hnodup vm hvm
      simp only [List.map_cons, List.nodup_cons] at hnodup
      rcases List.mem_cons.1 hvm with rfl | hvm'
      · simp only [List.foldl_cons]
        rw [statesFold_lookup_of_not_mem _ _ _ hnodup.1]
        simp
      · simp only [List.foldl_cons]
        exact ih _ hnodup.2 vm hvm'

/-- With pairwise distinct workload keys, the built state map answers each
workload's own key with its current status. -/
lemma buildStatesMap_lookup (vms : List ProxmoxVM)
    (hnodup : (vms.map vmKey).Nodup) :
    ∀ vm ∈ vms, buildStatesMap vms (vmKey vm) = some vm.status := by
  unfold buildStatesMap
  exact statesFold_lookup_self vms _ hnodup

lemma mkFire_node (conf : Bool) (d : DiscordEmbed → DeliveryResult)
    (s : ProxmoxNodeStatus) (thr : AlertThreshold) :
    (mkFire conf d s thr).node = s.node := rfl

lemma mkFire_metric (conf : Bool) (d : DiscordEmbed → DeliveryResult)
    (s : ProxmoxNodeStatus) (thr : AlertThreshold) :
    (mkFire conf d s thr).metric = thr.metric := rfl

lemma mkFire_row (conf : Bool) (d : DiscordEmbed → DeliveryResult)
    (s : ProxmoxNodeStatus) (thr : AlertThreshold) :
    (mkFire conf d s thr).row =
      ⟨thr.metric, currentValueOf s thr.metric, thr.threshold,
        alertMessage (metricLabelOf thr.metric) s.node (currentValueOf s thr.metric)
          thr.threshold⟩ := rfl

lemma mem_tickCells {c : ProxmoxNodeStatus × AlertThreshold}
    {nodesStatus : List ProxmoxNodeStatus} {thresholds : List AlertThreshold} :
    c ∈ tickCells nodesStatus thresholds ↔ c.1 ∈ nodesStatus ∧ c.2 ∈ thresholds := by
  unfold tickCells
  constructor
  · intro h
    rcases List.mem_flatMap.1 h with ⟨s, hs, hc⟩
    rcases List.mem_map.1 hc with ⟨thr, hthr, rfl⟩
    exact ⟨hs, hthr⟩
  · rintro ⟨h1, h2⟩
    exact List.mem_flatMap.2 ⟨c.1, h1, List.mem_map.2 ⟨c.2, h2, rfl⟩⟩

/-- A single enabled cell over threshold and off cooldown fires exactly
once. -/
lemma checkThresholds_single_fire (now : Int) (conf : Bool)
    (d : DiscordEmbed → DeliveryResult) (s : ProxmoxNodeStatus)
    (thr : AlertThreshold) (cd0 : CooldownMap)
    (hen : thr.enabled = true) (hge : thr.threshold ≤ currentValueOf s thr.metric)
    (hcool : isOnCooldown cd0 now s.node thr.metric = false) :
    checkThresholds now conf d [s] [thr] cd0 =
      { fires := [mkFire conf d s thr]
        cooldowns := setCooldown cd0 now s.node thr.metric } := by
  unfold checkThresholds
  simp only [List.foldl_cons, List.foldl_nil]
  simp [evalCell, hen, hge, hcool]

lemma mem_getAllNodesStatus {s : ProxmoxNodeStatus}
    {settled : List (Except String ProxmoxNodeStatus)} :
    s ∈ getAllNodesStatus settled ↔ Except.ok s ∈ settled := by
  unfold getAllNodesStatus
  rw [List.mem_filterMap]
  constructor
  · rintro ⟨r, hr, hmatch⟩
    cases r with
    | ok s' => simp only [Option.some.injEq] at hmatch; rw [← hmatch]; exact hr
    | error msg => simp at hmatch
  · intro h
    exact ⟨Except.ok s, h, rfl⟩

lemma filter_flatMap {α β : Type} (l : List α) (f : α → List β) (p : β → Bool) :
    (l.flatMap f).filter p = l.flatMap fun a => (f a).filter p := by
  induction l with
  | nil => rfl
  | cons a rest ih =>
      simp only [List.flatMap_cons, List.filter_append, ih]

lemma vmEvents_start (conf : Bool) (d : DiscordEmbed → DeliveryResult)
    (prev : VMStateMap) (vm : ProxmoxVM)
    (h1 : prev (vmKey vm) = some "stopped") (h2 : vm.status = "running") :
    vmEvents conf d prev vm =
      [⟨vm.node, vm.vmid, true, sendDiscordAlert conf d (vmStartedEmbed vm)⟩] := by
  have hA : ¬(prev (vmKey vm) = some "running" ∧ vm.status = "stopped") := by
    rintro ⟨ha, -⟩
    rw [h1] at ha
    exact absurd (Option.some.inj ha) (by decide)
  have hB : prev (vmKey vm) = some "stopped" ∧ vm.status = "running" := ⟨h1, h2⟩
  simp [vmEvents, hA, hB]

lemma vmEvents_stop (conf : Bool) (d : DiscordEmbed → DeliveryResult)
    (prev : VMStateMap) (vm : ProxmoxVM)
    (h1 : prev (vmKey vm) = some "running") (h2 : vm.status = "stopped") :
    vmEvents conf d prev vm =
      [⟨vm.node, vm.vmid, false, sendDiscordAlert conf d (vmStoppedEmbed vm)⟩] := by
  have hA : prev (vmKey vm) = some "running" ∧ vm.status = "stopped" := ⟨h1, h2⟩
  have hB : ¬(prev (vmKey vm) = some "stopped" ∧ vm.status = "running") := by
    rintro ⟨ha, -⟩
    rw [h1] at ha
    exact absurd (Option.some.inj ha) (by decide)
  simp [vmEvents, hA, hB]

lemma vmEvents_unchanged (conf : Bool) (d : DiscordEmbed → DeliveryResult)
    (prev : VMStateMap) (vm : ProxmoxVM)
    (h : prev (vmKey vm) = some vm.status) :
    vmEvents conf d prev vm = [] := by
  have hA : ¬(prev (vmKey vm) = some "running" ∧ vm.status = "stopped") := by
    rintro ⟨ha, hb⟩
    rw [h, hb] at ha
    exact absurd (Option.some.inj ha) (by decide)
  have hB : ¬(prev (vmKey vm) = some "stopped" ∧ vm.status = "running") := by
    rintro ⟨ha, hb⟩
    rw [h, hb] at ha
    exact absurd (Option.some.inj ha) (by decide)
  simp [vmEvents, hA, hB]

lemma mem_vmEvents {conf : Bool} {d : DiscordEmbed → DeliveryResult}
    {prev : VMStateMap} {vm : ProxmoxVM} {e : VMTransitionEvent}
    (he : e ∈ vmEvents conf d prev vm) :
    e.node = vm.node ∧ e.vmid = vm.vmid ∧ prev (vmKey vm) ≠ none ∧
      ((e.started = true ∧ prev (vmKey vm) = some "stopped" ∧ vm.status = "running") ∨
       (e.started = false ∧ prev (vmKey vm) = some "running" ∧ vm.status = "stopped")) := by
  unfold vmEvents at he
  rcases List.mem_append.1 he with h | h
  · by_cases hc : prev (vmKey vm) = some "running" ∧ vm.status = "stopped"
    · rw [if_pos hc] at h
      rcases List.mem_singleton.1 h with rfl
      exact ⟨rfl, rfl, by rw [hc.1]; exact Option.noConfusion, Or.inr ⟨rfl, hc⟩⟩
    · rw [if_neg hc] at h
      cases h
  · by_cases hc : prev (vmKey vm) = some "stopped" ∧ vm.status = "running"
    · rw [if_pos hc] at h
      rcases List.mem_singleton.1 h with rfl
      exact ⟨rfl, rfl, by rw [hc.1]; exact Option.noConfusion, Or.inl ⟨rfl, hc⟩⟩
    · rw [if_neg hc] at h
      cases h

/-- Events of a workload with a different snapshot key never match another
workload's (node, vmid) identity. -/
lemma vmEvents_filter_other (conf : Bool) (d : DiscordEmbed → DeliveryResult)
    (prev : VMStateMap) (vm vm' : ProxmoxVM) (q : VMTransitionEvent → Bool)
    (hkey : vmKey vm' ≠ vmKey vm) :
    (vmEvents conf d prev vm').filter
      (fun e => e.node == vm.node && e.vmid == vm.vmid && q e) = [] := by
  rw [List.filter_eq_nil_iff]
  intro e he hp
  rcases mem_vmEvents he with ⟨hn, hv, -, -⟩
  simp only [Bool.and_eq_true, beq_iff_eq] at hp
  apply hkey
  unfold vmKey
  rw [← hn, ← hv, hp.1.1, hp.1.2]

/-- C1: once an alert has fired for a (node, metric) pair at time `t`
(its cooldown entry holds `t`), a later evaluator tick at any `now` with
`now - t < 15` minutes records no fire — hence no notification attempt and
no alert-history row — for that pair, and leaves the pair's cooldown entry
at `t` (so the suppression persists tick after tick); once
`now - t ≥ 15` minutes, the pair is off cooldown and an enabled threshold
reached by the current value fires again. -/
theorem claim_C1 (now t : Int) (node metric : String) (conf : Bool)
    (d : DiscordEmbed → DeliveryResult) (nodesStatus : List ProxmoxNodeStatus)
    (thresholds : List AlertThreshold) (cd0 : CooldownMap)
    (hfired : cd0 (getCooldownKey node metric) = some t)
    (h0 : 0 < t) (_hmono : t ≤ now) :
    (now - t < COOLDOWN_MS →
      (∀ e ∈ (checkThresholds now conf d nodesStatus thresholds cd0).fires,
          ¬(e.node = node ∧ e.metric = metric)) ∧
        (checkThresholds now conf d nodesStatus thresholds cd0).cooldowns
          (getCooldownKey node metric) = some t) ∧
    (COOLDOWN_MS ≤ now - t →
      isOnCooldown cd0 now node metric = false ∧
        ∀ (s : ProxmoxNodeStatus) (thr : AlertThreshold),
          s.node = node → thr.metric = metric → thr.enabled = true →
          thr.threshold ≤ currentValueOf s thr.metric →
          (checkThresholds now conf d [s] [thr] cd0).fires = [mkFire conf d s thr]) := by
  constructor
  · intro hlt
    rw [checkThresholds_eq_foldCells]
    have hsupp := foldCells_suppressed now t conf d node metric (ne_of_gt h0) hlt
      (tickCells nodesStatus thresholds) ⟨[], cd0⟩ hfired
    refine ⟨fun e he => ?_, hsupp.1⟩
    rcases hsupp.2 e he with hin | hnot
    · cases hin
    · exact hnot
  · intro hge15
    have hcool : isOnCooldown cd0 now node metric = false := by
      unfold isOnCooldown
      rw [hfired]
      show (if t = 0 then false else decide (now - t < COOLDOWN_MS)) = false
      rw [if_neg (ne_of_gt h0)]
      simpa using not_lt.2 hge15
    refine ⟨hcool, fun s thr hn hm hen hge => ?_⟩
    have hcool' : isOnCooldown cd0 now s.node thr.metric = false := by
      rw [hn, hm]; exact hcool
    rw [checkThresholds_single_fire now conf d s thr cd0 hen hge hcool']

/-- C1 witness: a pair that fired at `t = 1000` stays silent at
`now = 2000` (one second later), and fires again at `now = 1000 + 15min`
when its enabled cpu threshold is reached. -/
theorem claim_C1_witness :
    (∀ e ∈ (checkThresholds 2000 true (fun _ => DeliveryResult.ok)
        [⟨"pve1", 90, 4, 8, 4, 10, 100, 90, 0⟩] [⟨"cpu", 80, true⟩]
        (fun k => if k = "pve1:cpu" then some 1000 else none)).fires,
      ¬(e.node = "pve1" ∧ e.metric = "cpu")) ∧
    (checkThresholds (1000 + COOLDOWN_MS) true (fun _ => DeliveryResult.ok)
        [⟨"pve1", 90, 4, 8, 4, 10, 100, 90, 0⟩] [⟨"cpu", 80, true⟩]
        (fun k => if k = "pve1:cpu" then some 1000 else none)).fires =
      [mkFire true (fun _ => DeliveryResult.ok) ⟨"pve1", 90, 4, 8, 4, 10, 100, 90, 0⟩
        ⟨"cpu", 80, true⟩] := by
  constructor
  · exact ((claim_C1 2000 1000 "pve1" "cpu" true (fun _ => DeliveryResult.ok)
      [⟨"pve1", 90, 4, 8, 4, 10, 100, 90, 0⟩] [⟨"cpu", 80, true⟩]
      (fun k => if k = "pve1:cpu" then some 1000 else none)
      (by decide) (by decide) (by decide)).1 (by decide)).1
  · exact ((claim_C1 (1000 + COOLDOWN_MS) 1000 "pve1" "cpu" true
      (fun _ => DeliveryResult.ok)
      [⟨"pve1", 90, 4, 8, 4, 10, 100, 90, 0⟩] [⟨"cpu", 80, true⟩]
      (fun k => if k = "pve1:cpu" then some 1000 else none)
      (by decide) (by decide) (by decide)).2 (by decide)).2
      ⟨"pve1", 90, 4, 8, 4, 10, 100, 90, 0⟩ ⟨"cpu", 80, true⟩ rfl rfl rfl (by decide)

/-- C2: a disabled threshold row is skipped entirely by the evaluator:
the tick is identical to the tick on the row list without it, no
alert-history row for its metric is written, and no (node, that metric)
cooldown entry is touched, whatever the observed values.  (The metric
names in the store are the seeded ones and pairwise distinct, as
`initDatabase` establishes and `updateAlertThreshold` preserves.) -/
theorem claim_C2 (now : Int) (conf : Bool) (d : DiscordEmbed → DeliveryResult)
    (nodesStatus : List ProxmoxNodeStatus) (l1 l2 : List AlertThreshold)
    (thr : AlertThreshold) (cd0 : CooldownMap)
    (hdis : thr.enabled = false)
    (hm : ∀ u ∈ l1 ++ thr :: l2, seededMetric u.metric)
    (ht : ((l1 ++ thr :: l2).map (·.metric)).Nodup) :
    checkThresholds now conf d nodesStatus (l1 ++ thr :: l2) cd0 =
        checkThresholds now conf d nodesStatus (l1 ++ l2) cd0 ∧
    (∀ e ∈ (checkThresholds now conf d nodesStatus (l1 ++ thr :: l2) cd0).fires,
        e.metric ≠ thr.metric) ∧
    (∀ r ∈ historyWrites (checkThresholds now conf d nodesStatus (l1 ++ thr :: l2) cd0),
        r.metric ≠ thr.metric) ∧
    (∀ node' : String,
        (checkThresholds now conf d nodesStatus (l1 ++ thr :: l2) cd0).cooldowns
            (getCooldownKey node' thr.metric) =
          cd0 (getCooldownKey node' thr.metric)) := by
  have hthr_mem : thr ∈ l1 ++ thr :: l2 := List.mem_append_right l1 (List.mem_cons_self thr l2)
  have hne : ∀ u ∈ l1 ++ thr :: l2, u.enabled = true → u.metric ≠ thr.metric := by
    intro u hu huen heq
    have : u = thr := List.inj_on_of_nodup_map ht hu hthr_mem heq
    rw [this] at huen
    rw [hdis] at huen
    exact Bool.noConfusion huen
  have hfires : ∀ e ∈ (checkThresholds now conf d nodesStatus (l1 ++ thr :: l2) cd0).fires,
      e.metric ≠ thr.metric := by
    intro e he
    rw [checkThresholds_eq_foldCells] at he
    rcases foldCells_fires_sound now conf d _ _ e he with hin | ⟨c, hc, hen, -, rfl⟩
    · cases hin
    · rw [mkFire_metric]
      exact hne c.2 (mem_tickCells.1 hc).2 hen
  refine ⟨checkThresholds_skip_disabled now conf d nodesStatus l1 l2 thr cd0 hdis,
    hfires, ?_, ?_⟩
  · intro r hr
    rcases List.mem_map.1 hr with ⟨e, he, rfl⟩
    have hmetric := hfires e he
    rw [checkThresholds_eq_foldCells] at he
    rcases foldCells_fires_sound now conf d _ _ e he with hin | ⟨c, hc, hen, -, rfl⟩
    · cases hin
    · rw [mkFire_row]
      rw [mkFire_metric] at hmetric
      exact hmetric
  · intro node'
    rw [checkThresholds_eq_foldCells]
    rcases foldCells_cooldowns_sound now conf d (tickCells nodesStatus (l1 ++ thr :: l2))
        ⟨[], cd0⟩ (getCooldownKey node' thr.metric) with h | ⟨⟨c, hc, hen, -, hk⟩, -⟩
    · exact h
    · exfalso
      have hmem := mem_tickCells.1 hc
      have hinj := getCooldownKey_inj (hm thr hthr_mem) (hm c.2 hmem.2) hk
      exact hne c.2 hmem.2 hen hinj.2.symm

/-- C2 witness: with the seeded rows where the memory row is disabled, a
tick on a node at full load writes nothing for `memory`, touches no
(node, memory) cooldown, and equals the tick without the memory row. -/
theorem claim_C2_witness :
    checkThresholds 1000 true (fun _ => DeliveryResult.ok)
        [⟨"pve1", 95, 8, 8, 0, 99, 100, 1, 0⟩]
        ([⟨"cpu", 80, true⟩] ++ ⟨"memory", 85, false⟩ :: [⟨"disk", 90, true⟩])
        (fun _ => none) =
      checkThresholds 1000 true (fun _ => DeliveryResult.ok)
        [⟨"pve1", 95, 8, 8, 0, 99, 100, 1, 0⟩]
        ([⟨"cpu", 80, true⟩] ++ [⟨"disk", 90, true⟩]) (fun _ => none) ∧
    ∀ r ∈ historyWrites (checkThresholds 1000 true (fun _ => DeliveryResult.ok)
        [⟨"pve1", 95, 8, 8, 0, 99, 100, 1, 0⟩]
        ([⟨"cpu", 80, true⟩] ++ ⟨"memory", 85, false⟩ :: [⟨"disk", 90, true⟩])
        (fun _ => none)), r.metric ≠ "memory" := by
  have h := claim_C2 1000 true (fun _ => DeliveryResult.ok)
    [⟨"pve1", 95, 8, 8, 0, 99, 100, 1, 0⟩] [⟨"cpu", 80, true⟩] [⟨"disk", 90, true⟩]
    ⟨"memory", 85, false⟩ (fun _ => none) (by decide) (by decide) (by decide)
  exact ⟨h.1, h.2.2.1⟩

lemma flatMap_eq_nil_of_forall {α β : Type} (l : List α) (f : α → List β)
    (h : ∀ x ∈ l, f x = []) : l.flatMap f = [] := by
  induction l with
  | nil => rfl
  | cons a rest ih =>
      simp only [List.flatMap_cons, h a (List.mem_cons_self a rest)]
      exact ih fun x hx => h x (List.mem_cons_of_mem a hx)

/-- Filtering the whole event list of a detector run by a predicate that
pins one workload's (node, vmid) identity keeps exactly that workload's
own events, provided workload keys are pairwise distinct. -/
lemma checkVMStatus_filter_key (d : DiscordEmbed → DeliveryResult)
    (prev : VMStateMap) (vms : List ProxmoxVM) (hkeys : (vms.map vmKey).Nodup)
    (p : VMTransitionEvent → Bool) (vm : ProxmoxVM) (hvm : vm ∈ vms)
    (hp : ∀ e, p e = true → e.node = vm.node ∧ e.vmid = vm.vmid) :
    (checkVMStatus true d prev vms).events.filter p =
      (vmEvents true d prev vm).filter p := by
  have hinj := List.inj_on_of_nodup_map hkeys
  rw [checkVMStatus_events, filter_flatMap]
  obtain ⟨a, b, hab⟩ := List.append_of_mem hvm
  subst hab
  have hother : ∀ v, v ∈ a ++ vm :: b → vmKey v ≠ vmKey vm →
      (vmEvents true d prev v).filter p = [] := by
    intro v _ hne
    rw [List.filter_eq_nil_iff]
    intro e he hpe
    rcases mem_vmEvents he with ⟨hn, hid, -, -⟩
    rcases hp e hpe with ⟨hn', hid'⟩
    apply hne
    unfold vmKey
    rw [← hn, ← hid, hn', hid']
  have hmemvm : vm ∈ a ++ vm :: b := List.mem_append_right a (List.mem_cons_self vm b)
  have hka : ∀ v ∈ a, (vmEvents true d prev v).filter p = [] := by
    intro v hv
    refine hother v (List.mem_append_left _ hv) fun hk => ?_
    have hveq : v = vm := hinj (List.mem_append_left _ hv) hmemvm hk
    have hnd : (a ++ vm :: b).Nodup := List.Nodup.of_map _ hkeys
    rcases List.nodup_append.1 hnd with ⟨-, hnd2, hdisj⟩
    exact hdisj (hveq ▸ hv) (List.mem_cons_self vm b)
  have hkb : ∀ v ∈ b, (vmEvents true d prev v).filter p = [] := by
    intro v hv
    refine hother v (List.mem_append_right _ (List.mem_cons_of_mem vm hv)) fun hk => ?_
    have hveq : v = vm := hinj (List.mem_append_right _ (List.mem_cons_of_mem vm hv)) hmemvm hk
    have hnd : (a ++ vm :: b).Nodup := List.Nodup.of_map _ hkeys
    rcases List.nodup_append.1 hnd with ⟨-, hnd2, -⟩
    rcases List.nodup_cons.1 hnd2 with ⟨hnotin, -⟩
    exact hnotin (hveq ▸ hv)
  rw [List.flatMap_append, List.flatMap_cons,
    flatMap_eq_nil_of_forall a _ hka, flatMap_eq_nil_of_forall b _ hkb]
  simp

/-- C3: with the webhook configured and pairwise distinct workload keys,
one detector run fires exactly one start notification for a workload whose
snapshot state goes stopped→running, exactly one stop notification for
running→stopped, none for an unchanged state, and every emitted event
belongs to a workload of the current inventory whose key was present in
the previous snapshot (so keys present only in the previous snapshot or
only in the current inventory produce nothing). -/
theorem claim_C3 (d : DiscordEmbed → DeliveryResult) (prev : VMStateMap)
    (vms : List ProxmoxVM) (hkeys : (vms.map vmKey).Nodup) :
    (∀ vm ∈ vms,
      (prev (vmKey vm) = some "stopped" → vm.status = "running" →
        (checkVMStatus true d prev vms).events.filter
            (fun e => e.node == vm.node && e.vmid == vm.vmid && e.started) =
          [⟨vm.node, vm.vmid, true, [vmStartedEmbed vm]⟩] ∧
        (checkVMStatus true d prev vms).events.filter
            (fun e => e.node == vm.node && e.vmid == vm.vmid && !e.started) = []) ∧
      (prev (vmKey vm) = some "running" → vm.status = "stopped" →
        (checkVMStatus true d prev vms).events.filter
            (fun e => e.node == vm.node && e.vmid == vm.vmid && !e.started) =
          [⟨vm.node, vm.vmid, false, [vmStoppedEmbed vm]⟩] ∧
        (checkVMStatus true d prev vms).events.filter
            (fun e => e.node == vm.node && e.vmid == vm.vmid && e.started) = []) ∧
      (prev (vmKey vm) = some vm.status →
        (checkVMStatus true d prev vms).events.filter
            (fun e => e.node == vm.node && e.vmid == vm.vmid) = [])) ∧
    (∀ e ∈ (checkVMStatus true d prev vms).events,
      ∃ vm ∈ vms, e.node = vm.node ∧ e.vmid = vm.vmid ∧ prev (vmKey vm) ≠ none) := by
  constructor
  · intro vm hvm
    have hpstart : ∀ e : VMTransitionEvent,
        (e.node == vm.node && e.vmid == vm.vmid && e.started) = true →
        e.node = vm.node ∧ e.vmid = vm.vmid := by
      intro e he
      simp only [Bool.and_eq_true, beq_iff_eq] at he
      exact ⟨he.1.1, he.1.2⟩
    have hpstop : ∀ e : VMTransitionEvent,
        (e.node == vm.node && e.vmid == vm.vmid && !e.started) = true →
        e.node = vm.node ∧ e.vmid = vm.vmid := by
      intro e he
      simp only [Bool.and_eq_true, beq_iff_eq] at he
      exact ⟨he.1.1, he.1.2⟩
    have hpid : ∀ e : VMTransitionEvent,
        (e.node == vm.node && e.vmid == vm.vmid) = true →
        e.node = vm.node ∧ e.vmid = vm.vmid := by
      intro e he
      simp only [Bool.and_eq_true, beq_iff_eq] at he
      exact he
    refine ⟨fun h1 h2 => ⟨?_, ?_⟩, fun h1 h2 => ⟨?_, ?_⟩, fun h1 => ?_⟩
    · rw [checkVMStatus_filter_key d prev vms hkeys _ vm hvm hpstart,
        vmEvents_start true d prev vm h1 h2, sendDiscordAlert_eq]
      simp
    · rw [checkVMStatus_filter_key d prev vms hkeys _ vm hvm hpstop,
        vmEvents_start true d prev vm h1 h2]
      simp
    · rw [checkVMStatus_filter_key d prev vms hkeys _ vm hvm hpstop,
        vmEvents_stop true d prev vm h1 h2, sendDiscordAlert_eq]
      simp
    · rw [checkVMStatus_filter_key d prev vms hkeys _ vm hvm hpstart,
        vmEvents_stop true d prev vm h1 h2]
      simp
    · rw [checkVMStatus_filter_key d prev vms hkeys _ vm hvm hpid,
        vmEvents_unchanged true d prev vm h1]
      rfl
  · intro e he
    rw [checkVMStatus_events] at he
    rcases List.mem_flatMap.1 he with ⟨vm, hvm, he'⟩
    rcases mem_vmEvents he' with ⟨hn, hid, hsome, -⟩
    exact ⟨vm, hvm, hn, hid, hsome⟩

/-- C3 witness: previous snapshot has ("n1", 100) stopped, current
inventory reports it running — exactly one start notification and no stop
notification fire. -/
theorem claim_C3_witness :
    (checkVMStatus true (fun _ => DeliveryResult.ok)
        (fun k => if k = "n1:100" then some "stopped" else none)
        [⟨100, "web", "running", "n1"⟩]).events.filter
        (fun e => e.node == "n1" && e.vmid == 100 && e.started) =
      [⟨"n1", 100, true, [vmStartedEmbed ⟨100, "web", "running", "n1"⟩]⟩] ∧
    (checkVMStatus true (fun _ => DeliveryResult.ok)
        (fun k => if k = "n1:100" then some "stopped" else none)
        [⟨100, "web", "running", "n1"⟩]).events.filter
        (fun e => e.node == "n1" && e.vmid == 100 && !e.started) = [] := by
  exact ((claim_C3 (fun _ => DeliveryResult.ok)
      (fun k => if k = "n1:100" then some "stopped" else none)
      [⟨100, "web", "running", "n1"⟩] (by decide)).1
      ⟨100, "web", "running", "n1"⟩ (by decide)).1 (by decide) rfl

/-- C4: every detector run persists, unconditionally, the full
current-state map built from the current inventory — whatever the
previous snapshot and whether or not any transition fired — and a second
run on the same inventory whose previous snapshot is the map the first run
persisted emits no event at all (snapshot persistence is idempotent, no
double-firing). -/
theorem claim_C4 (conf : Bool) (d : DiscordEmbed → DeliveryResult)
    (prev : VMStateMap) (vms : List ProxmoxVM)
    (hkeys : (vms.map vmKey).Nodup) :
    (checkVMStatus conf d prev vms).snapshot = buildStatesMap vms ∧
    (checkVMStatus conf d (checkVMStatus conf d prev vms).snapshot vms).events = [] := by
  refine ⟨checkVMStatus_snapshot conf d prev vms, ?_⟩
  rw [checkVMStatus_snapshot, checkVMStatus_events]
  exact flatMap_eq_nil_of_forall vms _ fun vm hvm =>
    vmEvents_unchanged conf d _ vm (buildStatesMap_lookup vms hkeys vm hvm)

/-- C4 witness: a mixed two-workload inventory (one running, one stopped,
one of them newly started relative to the snapshot) persisted and re-run:
the second run fires nothing. -/
theorem claim_C4_witness :
    (checkVMStatus true (fun _ => DeliveryResult.ok)
        (fun k => if k = "n1:100" then some "stopped" else none)
        [⟨100, "web", "running", "n1"⟩, ⟨101, "db", "stopped", "n1"⟩]).snapshot =
      buildStatesMap [⟨100, "web", "running", "n1"⟩, ⟨101, "db", "stopped", "n1"⟩] ∧
    (checkVMStatus true (fun _ => DeliveryResult.ok)
        (checkVMStatus true (fun _ => DeliveryResult.ok)
          (fun k => if k = "n1:100" then some "stopped" else none)
          [⟨100, "web", "running", "n1"⟩, ⟨101, "db", "stopped", "n1"⟩]).snapshot
        [⟨100, "web", "running", "n1"⟩, ⟨101, "db", "stopped", "n1"⟩]).events = [] := by
  exact claim_C4 true (fun _ => DeliveryResult.ok)
    (fun k => if k = "n1:100" then some "stopped" else none)
    [⟨100, "web", "running", "n1"⟩, ⟨101, "db", "stopped", "n1"⟩] (by decide)

/-- C5 counterexample: three nodes, the second times out.  The metric
points for the two healthy nodes are written, but the per-node error map
(`lastNodeErrors`) gains no entry: `getAllNodesStatus` drops the rejected
promise silently, so the claim "the per-tick error map contains exactly
one entry per failed node" is false on this input (the map stays empty). -/
theorem claim_C5_counterexample :
    ¬ ((∀ s : ProxmoxNodeStatus,
          Except.ok s ∈ [Except.ok ⟨"n1", 10, 4, 8, 4, 10, 100, 90, 0⟩,
            Except.error "Timeout connecting to n2 (15s)",
            Except.ok ⟨"n3", 20, 4, 8, 4, 10, 100, 90, 0⟩] →
          (⟨s.node, "cpu", s.cpu⟩ : MetricPoint) ∈
            (collectMetricsTick [Except.ok ⟨"n1", 10, 4, 8, 4, 10, 100, 90, 0⟩,
              Except.error "Timeout connecting to n2 (15s)",
              Except.ok ⟨"n3", 20, 4, 8, 4, 10, 100, 90, 0⟩] []).1) ∧
        ((collectMetricsTick [Except.ok ⟨"n1", 10, 4, 8, 4, 10, 100, 90, 0⟩,
            Except.error "Timeout connecting to n2 (15s)",
            Except.ok ⟨"n3", 20, 4, 8, 4, 10, 100, 90, 0⟩] []).2.filter
          (fun p => p.1 == "n2")).length = 1) := by
  intro h
  exact absurd h.2 (by decide)

/-- C5 amended: on a tick where some status fetches fail and others
succeed, the three MetricPoints are still written for every node that
succeeded, but the per-node error map is left exactly as it was — the
status-fetch path records no entry for a failed node (only the workload
inventory fetch `getVMs` maintains `lastNodeErrors`). -/
theorem claim_C5_amended (settled : List (Except String ProxmoxNodeStatus))
    (errs0 : List (String × String)) :
    (∀ s : ProxmoxNodeStatus, Except.ok s ∈ settled →
      (⟨s.node, "cpu", s.cpu⟩ : MetricPoint) ∈ (collectMetricsTick settled errs0).1 ∧
      (⟨s.node, "memory", s.memUsed / s.memTotal * 100⟩ : MetricPoint) ∈
        (collectMetricsTick settled errs0).1 ∧
      (⟨s.node, "disk", s.diskUsed / s.diskTotal * 100⟩ : MetricPoint) ∈
        (collectMetricsTick settled errs0).1) ∧
    (collectMetricsTick settled errs0).2 = errs0 := by
  refine ⟨fun s hs => ?_, rfl⟩
  have hmem : s ∈ getAllNodesStatus settled := mem_getAllNodesStatus.2 hs
  unfold collectMetricsTick collectMetrics
  refine ⟨List.mem_flatMap.2 ⟨s, hmem, ?_⟩, List.mem_flatMap.2 ⟨s, hmem, ?_⟩,
    List.mem_flatMap.2 ⟨s, hmem, ?_⟩⟩ <;> simp

/-- C5 witness for the amended claim: the healthy nodes of the
counterexample tick really get their cpu points, and the error map stays
empty. -/
theorem claim_C5_witness :
    (⟨"n1", "cpu", 10⟩ : MetricPoint) ∈
      (collectMetricsTick [Except.ok ⟨"n1", 10, 4, 8, 4, 10, 100, 90, 0⟩,
        Except.error "Timeout connecting to n2 (15s)",
        Except.ok ⟨"n3", 20, 4, 8, 4, 10, 100, 90, 0⟩] []).1 ∧
    (collectMetricsTick [Except.ok ⟨"n1", 10, 4, 8, 4, 10, 100, 90, 0⟩,
        Except.error "Timeout connecting to n2 (15s)",
        Except.ok ⟨"n3", 20, 4, 8, 4, 10, 100, 90, 0⟩] []).2 = [] := by
  refine ⟨((claim_C5_amended [Except.ok ⟨"n1", 10, 4, 8, 4, 10, 100, 90, 0⟩,
      Except.error "Timeout connecting to n2 (15s)",
      Except.ok ⟨"n3", 20, 4, 8, 4, 10, 100, 90, 0⟩] []).1
      ⟨"n1", 10, 4, 8, 4, 10, 100, 90, 0⟩ (List.mem_cons_self _ _)).1, ?_⟩
  exact (claim_C5_amended [Except.ok ⟨"n1", 10, 4, 8, 4, 10, 100, 90, 0⟩,
      Except.error "Timeout connecting to n2 (15s)",
      Except.ok ⟨"n3", 20, 4, 8, 4, 10, 100, 90, 0⟩] []).2

/-- C6: the delivery outcome oracle influences nothing: evaluator ticks and
detector runs are identical under any two delivery oracles (a failed POST
is caught inside `sendDiscordAlert` and never propagates), and a cell that
fires writes its alert-history row and sets its cooldown no matter what
the oracle answers. -/
theorem claim_C6 (now : Int) (conf : Bool)
    (d1 d2 : DiscordEmbed → DeliveryResult)
    (nodesStatus : List ProxmoxNodeStatus) (thresholds : List AlertThreshold)
    (cd0 : CooldownMap) (prev : VMStateMap) (vms : List ProxmoxVM) :
    checkThresholds now conf d1 nodesStatus thresholds cd0 =
        checkThresholds now conf d2 nodesStatus thresholds cd0 ∧
    checkVMStatus conf d1 prev vms = checkVMStatus conf d2 prev vms ∧
    ∀ (s : ProxmoxNodeStatus) (thr : AlertThreshold),
      thr.enabled = true → thr.threshold ≤ currentValueOf s thr.metric →
      isOnCooldown cd0 now s.node thr.metric = false →
      historyWrites (checkThresholds now conf d1 [s] [thr] cd0) =
          [(mkFire conf d1 s thr).row] ∧
        (checkThresholds now conf d1 [s] [thr] cd0).cooldowns
          (getCooldownKey s.node thr.metric) = some now := by
  refine ⟨checkThresholds_deliver_indep now conf d1 d2 nodesStatus thresholds cd0,
    checkVMStatus_deliver_indep conf d1 d2 prev vms, fun s thr hen hge hcool => ?_⟩
  rw [checkThresholds_single_fire now conf d1 s thr cd0 hen hge hcool]
  exact ⟨rfl, by simp [setCooldown]⟩

/-- C6 witness: with a succeeding oracle and an always-failing oracle the
tick states coincide, and the failing-delivery tick still writes the row
and the cooldown. -/
theorem claim_C6_witness :
    checkThresholds 1000 true (fun _ => DeliveryResult.ok)
        [⟨"pve1", 90, 4, 8, 4, 10, 100, 90, 0⟩] [⟨"cpu", 80, true⟩] (fun _ => none) =
      checkThresholds 1000 true (fun _ => DeliveryResult.failed)
        [⟨"pve1", 90, 4, 8, 4, 10, 100, 90, 0⟩] [⟨"cpu", 80, true⟩] (fun _ => none) ∧
    historyWrites (checkThresholds 1000 true (fun _ => DeliveryResult.failed)
        [⟨"pve1", 90, 4, 8, 4, 10, 100, 90, 0⟩] [⟨"cpu", 80, true⟩] (fun _ => none)) =
      [(mkFire true (fun _ => DeliveryResult.failed) ⟨"pve1", 90, 4, 8, 4, 10, 100, 90, 0⟩
        ⟨"cpu", 80, true⟩).row] ∧
    (checkThresholds 1000 true (fun _ => DeliveryResult.failed)
        [⟨"pve1", 90, 4, 8, 4, 10, 100, 90, 0⟩] [⟨"cpu", 80, true⟩]
        (fun _ => none)).cooldowns (getCooldownKey "pve1" "cpu") = some 1000 := by
  have h := claim_C6 1000 true (fun _ => DeliveryResult.failed) (fun _ => DeliveryResult.ok)
    [⟨"pve1", 90, 4, 8, 4, 10, 100, 90, 0⟩] [⟨"cpu", 80, true⟩] (fun _ => none)
    (fun _ => none) []
  have h3 := h.2.2 ⟨"pve1", 90, 4, 8, 4, 10, 100, 90, 0⟩ ⟨"cpu", 80, true⟩
    rfl (by decide) rfl
  exact ⟨h.1.symm, h3.1, h3.2⟩

/-- One scheduler tick's first two steps (`startAlertSystem`, alerts.ts
lines 159-165): `collectMetrics` awaits its own `proxmox.getAllNodesStatus()`
call (line 53) and then `checkThresholds` awaits a second, independent
`proxmox.getAllNodesStatus()` call (line 70) — so the two fetches settle
independently and are two separate parameters here. -/
def alertTick (now : Int) (conf : Bool) (d : DiscordEmbed → DeliveryResult)
    (settledCollect settledEval : List (Except String ProxmoxNodeStatus))
    (thresholds : List AlertThreshold) (errs0 : List (String × String))
    (cd0 : CooldownMap) :
    (List MetricPoint × List (String × String)) × EvalState :=
  (collectMetricsTick settledCollect errs0,
   checkThresholds now conf d (getAllNodesStatus settledEval) thresholds cd0)

/-- C7 counterexample: the evaluator does NOT reuse the collection batch —
it performs a second fetch.  When the first fetch reports cpu 10 and the
second reports cpu 90 (same node, same tick), the evaluator fires on 90
while the written MetricPoint says 10, refuting "the values the evaluator
compares equal the values written during that tick's collection step". -/
theorem claim_C7_counterexample :
    ¬ (∀ e ∈ (alertTick 1 true (fun _ => DeliveryResult.ok)
          [Except.ok ⟨"n1", 10, 4, 8, 4, 10, 100, 90, 0⟩]
          [Except.ok ⟨"n1", 90, 4, 8, 4, 10, 100, 90, 0⟩]
          [⟨"cpu", 50, true⟩] [] (fun _ => none)).2.fires,
        ∀ p ∈ (alertTick 1 true (fun _ => DeliveryResult.ok)
          [Except.ok ⟨"n1", 10, 4, 8, 4, 10, 100, 90, 0⟩]
          [Except.ok ⟨"n1", 90, 4, 8, 4, 10, 100, 90, 0⟩]
          [⟨"cpu", 50, true⟩] [] (fun _ => none)).1.1,
          p.node = e.node → p.metric = e.metric → p.value = e.row.value) := by
  decide

/-- C7 amended: the evaluator performs its own second status fetch; when
that second fetch settles identically to the collection fetch (and node
names are pairwise distinct in the batch), every value the evaluator fires
on equals the MetricPoint written for the same (node, metric) during the
same tick's collection step. -/
theorem claim_C7_amended (now : Int) (conf : Bool)
    (d : DiscordEmbed → DeliveryResult)
    (settled : List (Except String ProxmoxNodeStatus))
    (thresholds : List AlertThreshold) (errs0 : List (String × String))
    (cd0 : CooldownMap)
    (hnodes : ((getAllNodesStatus settled).map (·.node)).Nodup) :
    ∀ e ∈ (alertTick now conf d settled settled thresholds errs0 cd0).2.fires,
      ∀ p ∈ (alertTick now conf d settled settled thresholds errs0 cd0).1.1,
        p.node = e.node → p.metric = e.metric → p.value = e.row.value := by
  intro e he p hp hn hm
  have hinj := List.inj_on_of_nodup_map hnodes
  unfold alertTick at he hp
  simp only at he hp
  rw [checkThresholds_eq_foldCells] at he
  rcases foldCells_fires_sound now conf d _ _ e he with hin | ⟨c, hc, hen, hge, rfl⟩
  · cases hin
  · unfold collectMetricsTick collectMetrics at hp
    rcases List.mem_flatMap.1 hp with ⟨s', hs', hp3⟩
    have hc1 : c.1 ∈ getAllNodesStatus settled := (mem_tickCells.1 hc).1
    simp only [List.mem_cons, List.not_mem_nil, or_false] at hp3
    rcases hp3 with rfl | rfl | rfl
    · have hs : s' = c.1 := hinj hs' hc1 (by simpa [mkFire_node] using hn)
      have hmx : c.2.metric = "cpu" := by simpa [mkFire_metric] using hm.symm
      subst hs
      simp only [mkFire_row]
      rw [hmx]
      rfl
    · have hs : s' = c.1 := hinj hs' hc1 (by simpa [mkFire_node] using hn)
      have hmx : c.2.metric = "memory" := by simpa [mkFire_metric] using hm.symm
      subst hs
      simp only [mkFire_row]
      rw [hmx]
      rfl
    · have hs : s' = c.1 := hinj hs' hc1 (by simpa [mkFire_node] using hn)
      have hmx : c.2.metric = "disk" := by simpa [mkFire_metric] using hm.symm
      subst hs
      simp only [mkFire_row]
      rw [hmx]
      rfl

/-- C7 witness for the amended claim: when both fetches settle identically
on one node with cpu 90 and an enabled cpu threshold of 50, the fired
value matches the written cpu point. -/
theorem claim_C7_witness :
    (((getAllNodesStatus [Except.ok ⟨"n1", 90, 4, 8, 4, 10, 100, 90, 0⟩]).map
        (·.node)).Nodup) ∧
    (∀ e ∈ (alertTick 1 true (fun _ => DeliveryResult.ok)
        [Except.ok ⟨"n1", 90, 4, 8, 4, 10, 100, 90, 0⟩]
        [Except.ok ⟨"n1", 90, 4, 8, 4, 10, 100, 90, 0⟩]
        [⟨"cpu", 50, true⟩] [] (fun _ => none)).2.fires,
      ∀ p ∈ (alertTick 1 true (fun _ => DeliveryResult.ok)
        [Except.ok ⟨"n1", 90, 4, 8, 4, 10, 100, 90, 0⟩]
        [Except.ok ⟨"n1", 90, 4, 8, 4, 10, 100, 90, 0⟩]
        [⟨"cpu", 50, true⟩] [] (fun _ => none)).1.1,
        p.node = e.node → p.metric = e.metric → p.value = e.row.value) :=
  ⟨by decide,
   claim_C7_amended 1 true (fun _ => DeliveryResult.ok)
     [Except.ok ⟨"n1", 90, 4, 8, 4, 10, 100, 90, 0⟩]
     [⟨"cpu", 50, true⟩] [] (fun _ => none) (by decide)⟩

/-- C8: with the enabled threshold (cpu, 80) and node "pve1" reporting
cpu 85.3 while ("pve1","cpu") is off cooldown, one tick fires exactly
once: one alert-history row (metric cpu, value 85.3, threshold 80), one
notification attempt whose title is "⚠️ CPU Alert", and the pair's
cooldown set to `now`; and in general the comparison fires whenever
`currentValue ≥ thresholdPercent` (the guard is `>=`, equality included).
-/
theorem claim_C8 (now : Int) (d : DiscordEmbed → DeliveryResult) (cd0 : CooldownMap)
    (hcool : isOnCooldown cd0 now "pve1" "cpu" = false) :
    checkThresholds now true d [⟨"pve1", 85.3, 4, 8, 4, 10, 100, 90, 0⟩]
        [⟨"cpu", 80, true⟩] cd0 =
      { fires := [{ node := "pve1", metric := "cpu"
                    row := { metric := "cpu", value := 85.3, threshold := 80
                             message := alertMessage "CPU" "pve1" 85.3 80 }
                    notified := [alertEmbed "CPU" "pve1" 85.3 80] }]
        cooldowns := setCooldown cd0 now "pve1" "cpu" } ∧
    (alertEmbed "CPU" "pve1" 85.3 80).title = "⚠️ CPU Alert" ∧
    setCooldown cd0 now "pve1" "cpu" (getCooldownKey "pve1" "cpu") = some now ∧
    ∀ (s : ProxmoxNodeStatus) (thr : AlertThreshold) (cd : CooldownMap),
      thr.enabled = true → thr.threshold ≤ currentValueOf s thr.metric →
      isOnCooldown cd now s.node thr.metric = false →
      (checkThresholds now true d [s] [thr] cd).fires = [mkFire true d s thr] := by
  refine ⟨?_, rfl, by simp [setCooldown], fun s thr cd hen hge hcool' => ?_⟩
  · rw [checkThresholds_single_fire now true d ⟨"pve1", 85.3, 4, 8, 4, 10, 100, 90, 0⟩
      ⟨"cpu", 80, true⟩ cd0 rfl (by norm_num [currentValueOf]) hcool]
    simp only [mkFire, sendDiscordAlert_eq, if_pos rfl]
    rfl
  · rw [checkThresholds_single_fire now true d s thr cd hen hge hcool']

/-- C8 witness: the scenario run with an empty cooldown map at
`now = 1000`. -/
theorem claim_C8_witness :
    checkThresholds 1000 true (fun _ => DeliveryResult.ok)
        [⟨"pve1", 85.3, 4, 8, 4, 10, 100, 90, 0⟩] [⟨"cpu", 80, true⟩] (fun _ => none) =
      { fires := [{ node := "pve1", metric := "cpu"
                    row := { metric := "cpu", value := 85.3, threshold := 80
                             message := alertMessage "CPU" "pve1" 85.3 80 }
                    notified := [alertEmbed "CPU" "pve1" 85.3 80] }]
        cooldowns := setCooldown (fun _ => none) 1000 "pve1" "cpu" } ∧
    (alertEmbed "CPU" "pve1" 85.3 80).title = "⚠️ CPU Alert" ∧
    setCooldown (fun _ => none) 1000 "pve1" "cpu" (getCooldownKey "pve1" "cpu") =
      some 1000 := by
  have h := claim_C8 1000 (fun _ => DeliveryResult.ok) (fun _ => none) rfl
  exact ⟨h.1, h.2.1, h.2.2.1⟩

lemma createdAtDesc_trans : ∀ a b c : AlertHistoryRow,
    createdAtDesc a b = true → createdAtDesc b c = true → createdAtDesc a c = true := by
  intro a b c hab hbc
  simp only [createdAtDesc, decide_eq_true_eq] at *
  exact le_trans hbc hab

lemma createdAtDesc_total : ∀ a b : AlertHistoryRow,
    (createdAtDesc a b || createdAtDesc b a) = true := by
  intro a b
  simp only [createdAtDesc, Bool.or_eq_true, decide_eq_true_eq]
  exact (le_total b.created_at a.created_at)

/-- C9: after a cleanup pass at time `now`, a metric point survives exactly
when its timestamp is within the last seven days (so a point older than
seven days is absent and a six-day-old point is retained), and the alert
history keeps at most 1000 rows, all drawn from the original table, and
every deleted row is no newer than any kept row — i.e. only the most
recent 1000 entries remain. -/
theorem claim_C9 (now : Int) (metricHist : List MetricHistoryRow)
    (alertHist : List AlertHistoryRow)
    (hids : (alertHist.map (·.id)).Nodup) :
    (∀ r ∈ metricHist,
      (r ∈ (cleanupOldHistory now metricHist alertHist).1 ↔
        now - 7 * 24 * 60 * 60 * 1000 ≤ r.created_at)) ∧
    (∀ r ∈ metricHist, r.created_at = now - 6 * 24 * 60 * 60 * 1000 →
      r ∈ (cleanupOldHistory now metricHist alertHist).1) ∧
    (cleanupOldHistory now metricHist alertHist).2.length ≤ 1000 ∧
    (∀ y ∈ (cleanupOldHistory now metricHist alertHist).2, y ∈ alertHist) ∧
    (∀ x ∈ alertHist, x ∉ (cleanupOldHistory now metricHist alertHist).2 →
      ∀ y ∈ (cleanupOldHistory now metricHist alertHist).2,
        x.created_at ≤ y.created_at) := by
  have hmetric : ∀ r ∈ metricHist,
      (r ∈ (cleanupOldHistory now metricHist alertHist).1 ↔
        now - 7 * 24 * 60 * 60 * 1000 ≤ r.created_at) := by
    intro r hr
    simp only [cleanupOldHistory, List.mem_filter]
    simp [hr, not_lt]
  have hperm : (alertHist.mergeSort createdAtDesc).Perm alertHist :=
    List.mergeSort_perm alertHist createdAtDesc
  have hpair : List.Pairwise (fun a b => createdAtDesc a b = true)
      (alertHist.mergeSort createdAtDesc) :=
    List.sorted_mergeSort createdAtDesc_trans createdAtDesc_total alertHist
  have hnodup : alertHist.Nodup := List.Nodup.of_map _ hids
  have hinj := List.inj_on_of_nodup_map hids
  have hsortmem : ∀ z ∈ alertHist.mergeSort createdAtDesc, z ∈ alertHist :=
    fun z hz => hperm.mem_iff.1 hz
  have hkept_mem : ∀ y ∈ (cleanupOldHistory now metricHist alertHist).2, y ∈ alertHist := by
    intro y hy
    simp only [cleanupOldHistory, List.mem_filter] at hy
    exact hy.1
  have hkept_take : ∀ y ∈ (cleanupOldHistory now metricHist alertHist).2,
      y ∈ (alertHist.mergeSort createdAtDesc).take 1000 := by
    intro y hy
    simp only [cleanupOldHistory, List.mem_filter] at hy
    have hy2 : y.id ∈ ((alertHist.mergeSort createdAtDesc).take 1000).map (·.id) := by
      simpa [List.contains, List.elem_iff] using hy.2
    rcases List.mem_map.1 hy2 with ⟨z, hz, hzid⟩
    have hz' : z ∈ alertHist := hsortmem z (List.take_subset _ _ hz)
    have : z = y := hinj hz' hy.1 hzid
    rwa [← this]
  have hnotkept_drop : ∀ x ∈ alertHist,
      x ∉ (cleanupOldHistory now metricHist alertHist).2 →
      x ∈ (alertHist.mergeSort createdAtDesc).drop 1000 := by
    intro x hx hxn
    have hxs : x ∈ alertHist.mergeSort createdAtDesc := hperm.mem_iff.2 hx
    rw [← List.take_append_drop 1000 (alertHist.mergeSort createdAtDesc)] at hxs
    rcases List.mem_append.1 hxs with hxt | hxd
    · exfalso
      apply hxn
      simp only [cleanupOldHistory, List.mem_filter]
      refine ⟨hx, ?_⟩
      simpa [List.contains, List.elem_iff] using List.mem_map_of_mem (·.id) hxt
    · exact hxd
  refine ⟨hmetric, ?_, ?_, hkept_mem, ?_⟩
  · intro r hr hr6
    rw [hmetric r hr, hr6]
    omega
  · have hknodup : (cleanupOldHistory now metricHist alertHist).2.Nodup := by
      simp only [cleanupOldHistory]
      exact List.Nodup.filter _ hnodup
    have hsub := List.subperm_of_subset hknodup hkept_take
    calc (cleanupOldHistory now metricHist alertHist).2.length
        ≤ ((alertHist.mergeSort createdAtDesc).take 1000).length :=
          List.Subperm.length_le hsub
      _ ≤ 1000 := List.length_take_le _ _
  · intro x hx hxn y hy
    have hyt := hkept_take y hy
    have hxd := hnotkept_drop x hx hxn
    have hpair' := hpair
    rw [← List.take_append_drop 1000 (alertHist.mergeSort createdAtDesc)] at hpair'
    rcases List.pairwise_append.1 hpair' with ⟨-, -, hcross⟩
    have := hcross y hyt x hxd
    simpa [createdAtDesc] using this

/-- C9 witness: three alert rows with distinct ids all survive (3 ≤ 1000),
a metric point 8 days old is deleted and one 6 days old is retained. -/
theorem claim_C9_witness :
    ((⟨"n1", "cpu", 50, 1000000 - 8 * 24 * 60 * 60 * 1000⟩ : MetricHistoryRow) ∈
      (cleanupOldHistory 1000000
        [⟨"n1", "cpu", 50, 1000000 - 8 * 24 * 60 * 60 * 1000⟩,
         ⟨"n1", "cpu", 60, 1000000 - 6 * 24 * 60 * 60 * 1000⟩]
        [⟨1, "cpu", 90, 80, "m1", 10⟩, ⟨2, "cpu", 91, 80, "m2", 20⟩]).1 ↔
      (1000000 - 7 * 24 * 60 * 60 * 1000 : Int) ≤ 1000000 - 8 * 24 * 60 * 60 * 1000) ∧
    ((⟨"n1", "cpu", 60, 1000000 - 6 * 24 * 60 * 60 * 1000⟩ : MetricHistoryRow) ∈
      (cleanupOldHistory 1000000
        [⟨"n1", "cpu", 50, 1000000 - 8 * 24 * 60 * 60 * 1000⟩,
         ⟨"n1", "cpu", 60, 1000000 - 6 * 24 * 60 * 60 * 1000⟩]
        [⟨1, "cpu", 90, 80, "m1", 10⟩, ⟨2, "cpu", 91, 80, "m2", 20⟩]).1) ∧
    (cleanupOldHistory 1000000
        [⟨"n1", "cpu", 50, 1000000 - 8 * 24 * 60 * 60 * 1000⟩,
         ⟨"n1", "cpu", 60, 1000000 - 6 * 24 * 60 * 60 * 1000⟩]
        [⟨1, "cpu", 90, 80, "m1", 10⟩, ⟨2, "cpu", 91, 80, "m2", 20⟩]).2.length ≤ 1000 := by
  have h := claim_C9 1000000
    [⟨"n1", "cpu", 50, 1000000 - 8 * 24 * 60 * 60 * 1000⟩,
     ⟨"n1", "cpu", 60, 1000000 - 6 * 24 * 60 * 60 * 1000⟩]
    [⟨1, "cpu", 90, 80, "m1", 10⟩, ⟨2, "cpu", 91, 80, "m2", 20⟩] (by decide)
  refine ⟨?_, ?_, h.2.2.1⟩
  · exact h.1 _ (List.mem_cons_self _ _)
  · exact h.2.1 _ (List.mem_cons_of_mem _ (List.mem_cons_self _ _)) rfl

/-- C10: updating a metric that has no row in the threshold store (in
particular any metric outside the seeded set cpu/memory/disk, which are
the only rows `initDatabase` ever inserts) leaves the store completely
unchanged: the SQL UPDATE matches no row and inserts none. -/
theorem claim_C10 (store : ThresholdStore) (m : String) (th : Rat) (en : Bool)
    (h : ∀ r ∈ store, r.metric ≠ m) :
    updateAlertThreshold store m th en = store ∧
    (¬ seededMetric m →
      updateAlertThreshold (initDatabase []) m th en = initDatabase []) := by
  have main : ∀ l : ThresholdStore, (∀ r ∈ l, r.metric ≠ m) →
      updateAlertThreshold l m th en = l := by
    intro l
    induction l with
    | nil => intro _; rfl
    | cons r rest ih =>
        intro hl
        have hrest := ih fun x hx => hl x (List.mem_cons_of_mem r hx)
        unfold updateAlertThreshold at hrest ⊢
        simp only [List.map_cons, if_neg (hl r (List.mem_cons_self r rest)), hrest]
  refine ⟨main store h, fun hns => ?_⟩
  apply main
  have hinit : initDatabase [] = defaultThresholdSeed := by rfl
  rw [hinit]
  intro r hr
  simp only [defaultThresholdSeed, List.mem_cons, List.not_mem_nil, or_false] at hr
  rcases hr with rfl | rfl | rfl
  · intro heq; exact hns (Or.inl heq.symm)
  · intro heq; exact hns (Or.inr (Or.inl heq.symm))
  · intro heq; exact hns (Or.inr (Or.inr heq.symm))

/-- C10 witness: updating the unknown metric "network" on the freshly
seeded store changes nothing. -/
theorem claim_C10_witness :
    updateAlertThreshold (initDatabase []) "network" 50 false = initDatabase [] :=
  (claim_C10 (initDatabase []) "network" 50 false (by decide)).1
